import Mathlib

/-!
Verification of the job-orchestration core of audiobook-factory.

The definitions below are shallow embeddings of the Python source:
  app/jobs.py   (worker loop, progress estimator, cancellation registry)
  app/state.py  (state store: update_job)
  app/web.py    (startup_event, cancel_pending, enqueue_single)
  app/db.py     (add_to_queue, the durable queue mirror)
Floats are modelled as rationals, Python dicts as partial maps, and
process/filesystem facts (exit codes, file existence) as explicit inputs.
-/

namespace AudiobookFactory

/-- Job lifecycle status, app/models.py: Status literal. -/
inductive Status
  | queued | running | done | failed | cancelled
deriving DecidableEq, Repr

/-- Engine kind, app/models.py: Engine literal. -/
inductive Engine
  | xtts | audiobook
deriving DecidableEq, Repr

/-- Job record, app/models.py plus the fields jobs.py and web.py read on it. -/
structure Job where
  id : String
  engine : Engine
  chapter_file : String
  status : Status
  created_at : ℚ := 0
  started_at : Option ℚ := none
  finished_at : Option ℚ := none
  safe_mode : Bool := true
  make_mp3 : Bool := true
  speaker_profile : Option String := none
  output_wav : Option String := none
  output_mp3 : Option String := none
  progress : ℚ := 0
  eta_seconds : Option ℤ := none
  log : String := ""
  error : Option String := none
  warning_count : ℕ := 0
  bypass_pause : Bool := false
  custom_title : Option String := none
  project_id : Option String := none
  chapter_id : Option String := none
  segment_ids : List String := []
  is_bake : Bool := false
deriving DecidableEq, Repr

/-- Python round(x, 2): round to two decimals. Ties are modelled round-half-up
(Python uses the double's half-even rule; the values rounded here come from
measurements, so exact ties do not occur, and all lemmas used below
- monotonicity, fixing multiples of 1/100 - agree between the two rules). -/
def round2 (q : ℚ) : ℚ := (round (q * 100) : ℤ) / 100

/-- Python int() on a rational: truncation toward zero. -/
def pyint (q : ℚ) : ℤ := if 0 ≤ q then ⌊q⌋ else -⌊-q⌋

/-- app/jobs.py _estimate_seconds: max(5, int(text_chars / max(1.0, cps))). -/
def _estimate_seconds (text_chars : ℕ) (cps : ℚ) : ℤ :=
  max 5 (pyint ((text_chars : ℚ) / max 1 cps))

/-- app/jobs.py cancel: the registry is the dict cancel_flags mapping a job id
to the set-state of its threading.Event; cancel sets the event if present. -/
def cancel (cancel_flags : String → Option Bool) (job_id : String) :
    String → Option Bool :=
  match cancel_flags job_id with
  | none => cancel_flags
  | some _ => fun k => if k = job_id then some true else cancel_flags k

/-- app/web.py startup_event, per-job part: any job found queued or running is
reset to cancelled with error "Restarted" and cleared transient fields. -/
def startup_reset_job (j : Job) : Job :=
  if j.status = .queued ∨ j.status = .running then
    { j with status := .cancelled, progress := 0, started_at := none,
             log := "Reset on startup.", finished_at := none,
             eta_seconds := none, error := some "Restarted", warning_count := 0 }
  else j

/-- app/web.py startup_event: the pass over all persisted jobs. -/
def startup_event_pass (jobs : List (String × Job)) : List (String × Job) :=
  jobs.map fun p => (p.1, startup_reset_job p.2)

/-- app/web.py cancel_pending, per-job part: every queued or running job is set
to cancelled (running ones additionally get their cancel flag signalled). -/
def cancel_pending_job (j : Job) : Job :=
  if j.status = .queued ∨ j.status = .running then
    { j with status := .cancelled, progress := 0, started_at := none,
             log := "Cancelled by user." }
  else j

/-- app/jobs.py cleanup_and_reconcile, reset step: a done non-audiobook job
whose output artifact is missing is reset to queued with cleared fields. -/
def reconcile_reset_job (j : Job) (output_exists : Bool) : Job :=
  if j.status = .done ∧ j.engine ≠ .audiobook ∧ output_exists = false then
    { j with status := .queued, output_mp3 := none, output_wav := none,
             progress := 0, started_at := none, finished_at := none,
             eta_seconds := none,
             log := "Reconcliation: Output missing, resetting to queued.",
             error := none, warning_count := 0 }
  else j

/-- The transition edges named by the spec: queued to running, running to a
terminal status, terminal back to queued (reconciliation reset). -/
def spec_edge : Status → Status → Bool
  | .queued, .running => true
  | .running, .done => true
  | .running, .failed => true
  | .running, .cancelled => true
  | .done, .queued => true
  | .failed, .queued => true
  | .cancelled, .queued => true
  | _, _ => false

/-- The edges the code actually uses: the spec edges plus the direct
queued-to-cancelled edge taken by startup reset and cancel-all-pending. -/
def ext_edge (a b : Status) : Bool :=
  spec_edge a b || (a == .queued && b == .cancelled)

/-- A status write is acceptable when it is a no-op or follows an edge. -/
def edge_ok (a b : Status) : Bool := a == b || ext_edge a b

/-- app/engines.py run_cmd_stream: when the cancellation poll observes the
flag, the engine process is terminated and the return code is 1; otherwise the
invocation returns the process exit code (None coerced to 0). -/
def run_cmd_stream_rc (cancel_observed : Bool) (proc_exit : ℤ) : ℤ :=
  if cancel_observed then 1 else proc_exit

/-- app/jobs.py worker_loop, audiobook branch terminal write: done when the
assembly returned 0 and the m4b exists, otherwise failed; the branch ends in
continue before the cancel-flag check, so no other status is possible. -/
def audiobook_final (rc : ℤ) (out_exists : Bool) : Status :=
  if rc = 0 ∧ out_exists = true then .done else .failed

/-- app/jobs.py worker_loop, segment-generation branch terminal write: the
per-group loop breaks when the cancel flag is set, and the branch then writes
status done with progress 1.0 unconditionally. -/
def segment_loop_final (cancel_observed : Bool) : Status := .done

/-- app/jobs.py worker_loop, bake branch after generation: a set cancel flag
hits the bare continue before stitching (no status write, the job record keeps
status running); otherwise the stitch result decides done or failed. -/
def bake_final (cancel_before_stitch : Bool) (stitch_rc : ℤ)
    (out_exists : Bool) : Option Status :=
  if cancel_before_stitch then none
  else if stitch_rc = 0 ∧ out_exists = true then some .done else some .failed

/-- app/jobs.py worker_loop, plain synthesis terminal write: the cancel flag is
checked first, then the return code and output file, then done. -/
def xtts_final (cancel_set : Bool) (rc : ℤ) (out_wav_exists : Bool) : Status :=
  if cancel_set = true then .cancelled
  else if rc ≠ 0 ∨ out_wav_exists = false then .failed
  else .done

/-- Result of the two safety checks at app/jobs.py worker_loop lines 381-389,
before any engine invocation. -/
structure DispatchResult where
  status : Option Status
  progress : Option ℚ
  engine_invoked : Bool
deriving DecidableEq, Repr

/-- app/jobs.py worker_loop: a non-audiobook job whose text file is missing
and which is neither segment-based nor a bake fails before the idempotence
check. -/
def missing_text_failure (j : Job) (text_exists : Bool) : Bool :=
  j.engine != .audiobook && !text_exists && !(!j.segment_ids.isEmpty || j.is_bake)

/-- app/jobs.py worker_loop lines 381-389: the missing-text check, then the
idempotence check (_output_exists), then fall-through to engine invocation. -/
def worker_dispatch (j : Job) (text_exists output_exists : Bool) :
    DispatchResult :=
  if missing_text_failure j text_exists then
    ⟨some .failed, some 1, false⟩
  else if output_exists then
    ⟨some .done, some 1, false⟩
  else
    ⟨none, none, true⟩

/-- A Python dict, as stored for one job in state.json: a partial map from
field name to value. -/
def FieldMap (α : Type) := String → Option α

/-- Python dict.update: keys present in the update overwrite, others remain. -/
def dict_update {α : Type} (j u : FieldMap α) : FieldMap α :=
  fun k => match u k with
  | some v => some v
  | none => j k

/-- Observable effects of one app/state.py update_job call: the resulting jobs
map, whether a forward-sync to the SQLite mirror was attempted (only on a
status change), and whether the registered listeners were notified. -/
structure UpdateEffects (α : Type) where
  jobs : String → Option (FieldMap α)
  synced_to_mirror : Bool
  listeners_notified : Bool

/-- app/state.py update_job: returns immediately when the id is absent;
otherwise applies the partial update, forward-syncs when the update carries a
status field, and notifies listeners. (The source tests the record with
Python truthiness, which would also treat an empty dict as absent; records are
written by put_job from a dataclass and are never empty, so absence is the
only realisable no-op case.) -/
def update_job {α : Type} (jobs : String → Option (FieldMap α))
    (job_id : String) (u : FieldMap α) : UpdateEffects α :=
  match jobs job_id with
  | none => ⟨jobs, false, false⟩
  | some j =>
    let j2 := dict_update j u
    ⟨fun k => if k = job_id then some j2 else jobs k, (u "status").isSome, true⟩

/-- One row of the processing_queue table, app/db.py (the durable queue
mirror). -/
structure QueueRecord where
  id : String
  project_id : String
  chapter_id : String
  split_part : ℤ
  qstatus : String
deriving DecidableEq, Repr

/-- The uniqueness filter of app/db.py add_to_queue: a record for this target
whose status is queued or running. -/
def record_active_for (ch : String) (sp : ℤ) (r : QueueRecord) : Bool :=
  r.chapter_id == ch && r.split_part == sp &&
    (r.qstatus == "queued" || r.qstatus == "running")

/-- app/db.py add_to_queue: if a queued/running record for (chapter_id,
split_part) exists its id is returned and nothing is inserted; otherwise a new
queued record with a fresh id is appended. -/
def add_to_queue (tbl : List QueueRecord) (fresh_id project_id chapter_id :
    String) (split_part : ℤ) : String × List QueueRecord :=
  match tbl.find? (record_active_for chapter_id split_part) with
  | some r => (r.id, tbl)
  | none =>
    (fresh_id, tbl ++ [⟨fresh_id, project_id, chapter_id, split_part, "queued"⟩])

/-- Number of queued/running mirror records for one target. -/
def count_active (tbl : List QueueRecord) (ch : String) (sp : ℤ) : ℕ :=
  tbl.countP (record_active_for ch sp)

/-- Result of app/web.py enqueue_single: ok=false models the 400 response
"Chapter already running". -/
structure EnqueueSingleResult where
  ok : Bool
  job_id : Option String
  jobs : List (String × Job)

/-- app/web.py enqueue_single, title recovery: the loop keeps the last
custom_title seen among jobs for this chapter file. -/
def es_existing_title (jobs : List (String × Job)) (cf : String) :
    Option String :=
  jobs.foldl (fun acc p =>
    if p.2.chapter_file = cf then
      match p.2.custom_title with
      | some t => some t
      | none => acc
    else acc) none

/-- app/web.py enqueue_single: rejects when a job for the same chapter file and
engine is running; otherwise deletes every job record for that chapter file and
engine and enqueues a brand-new queued job under a fresh id. -/
def enqueue_single (jobs : List (String × Job)) (fresh_id cf : String)
    (en : Engine) (safe_mode_setting : Bool) (created : ℚ) :
    EnqueueSingleResult :=
  if jobs.any (fun p =>
      p.2.chapter_file == cf && p.2.engine == en && p.2.status == .running) then
    ⟨false, none, jobs⟩
  else
    let kept := jobs.filter (fun p => !(p.2.chapter_file == cf && p.2.engine == en))
    let newJob : Job :=
      { id := fresh_id, engine := en, chapter_file := cf, status := .queued,
        created_at := created, safe_mode := safe_mode_setting,
        make_mp3 := true, bypass_pause := true,
        custom_title := es_existing_title jobs cf }
    ⟨true, some fresh_id, kept ++ [(fresh_id, newJob)]⟩

/-- Jobs in the state store that are queued or running for one target. -/
def count_active_jobs (jobs : List (String × Job)) (cf : String) (en : Engine) :
    ℕ :=
  jobs.countP (fun p =>
    p.2.chapter_file == cf && p.2.engine == en &&
      (p.2.status == .queued || p.2.status == .running))

/-- The per-job broadcast bookkeeping the worker keeps on the transient Job
object while streaming engine output: j.progress, j._last_broadcast_p,
j._last_broadcast_time, j.warning_count (app/jobs.py worker_loop). -/
structure OOState where
  progress : ℚ
  lastBroadcastP : ℚ
  lastBroadcastTime : ℚ
  warningCount : ℕ
deriving DecidableEq, Repr

/-- Classification of one engine output line as branched on by on_output:
an empty (heartbeat) line; a line dropped by the noise filters; a tqdm-style
progress line carrying a percentage; or any other text line, which may carry
the long-sentence warning marker and may pass the log heuristic. -/
inductive LineKind
  | empty
  | filtered
  | tqdmLine (pct : ℕ)
  | textLine (is_warning : Bool) (has_log : Bool)
deriving DecidableEq, Repr

/-- A write pushed through the state store by on_output: the heartbeat
progress write, the warning-count write, or the consolidated broadcast with
an optional progress value and an optional log payload. -/
inductive StoreWrite
  | progressOnly (p : ℚ)
  | warnWrite (n : ℕ)
  | consolidated (p : Option ℚ) (has_log : Bool)
deriving DecidableEq, Repr

/-- The time projection min(0.98, max(j.progress, elapsed / max(1, eta))). -/
def projection (st : OOState) (now start : ℚ) (eta : ℕ) : ℚ :=
  min (49/50) (max st.progress ((now - start) / ((max 1 eta : ℕ) : ℚ)))

/-- app/jobs.py on_output, consolidated broadcast (block 4): progress is
included when it moved at least 0.01 from the last broadcast value or when
nothing was broadcast yet; the update is sent if it carries a log or progress
payload, and the bookkeeping mirrors exactly what was sent. -/
def consolidatedStep (st : OOState) (now new_progress : ℚ) (has_log : Bool) :
    OOState × List StoreWrite :=
  if |new_progress - st.lastBroadcastP| ≥ 1/100 ∨
      (st.lastBroadcastP = 0 ∧ new_progress > 0) then
    ({ st with progress := new_progress, lastBroadcastP := new_progress,
               lastBroadcastTime := now },
     [.consolidated (some new_progress) has_log])
  else if has_log then
    ({ st with lastBroadcastTime := now }, [.consolidated none has_log])
  else (st, [])

/-- app/jobs.py on_output: heartbeat branch for empty lines; early return on
filtered noise; tqdm percentage extraction (taken only when it beats the
current progress, otherwise the time projection is used); warning counting and
the consolidated broadcast for other lines. -/
def on_output (st : OOState) (now start : ℚ) (eta : ℕ) :
    LineKind → OOState × List StoreWrite
  | .empty =>
    let prog := projection st now start eta
    if prog - st.lastBroadcastP ≥ 1/100 ∨ now - st.lastBroadcastTime ≥ 30 then
      let p := round2 prog
      ({ st with progress := p, lastBroadcastP := p, lastBroadcastTime := now },
       [.progressOnly p])
    else (st, [])
  | .filtered => (st, [])
  | .tqdmLine pct =>
    let p_val := round2 ((pct : ℚ) / 100)
    let new_progress :=
      if st.progress < p_val then p_val
      else round2 (projection st now start eta)
    consolidatedStep st now new_progress false
  | .textLine is_warning has_log =>
    let st1 := if is_warning then { st with warningCount := st.warningCount + 1 } else st
    let warnW : List StoreWrite :=
      if is_warning then [.warnWrite (st.warningCount + 1)] else []
    let new_progress := round2 (projection st1 now start eta)
    let r := consolidatedStep st1 now new_progress has_log
    (r.1, warnW ++ r.2)

/-- The progress values carried by a list of state-store writes. -/
def progressValues (ws : List StoreWrite) : List ℚ :=
  ws.filterMap fun w => match w with
    | .progressOnly p => some p
    | .consolidated (some p) _ => some p
    | _ => none

/-- app/jobs.py worker_loop, bake branch: the per-group progress written when a
SEGMENT_SAVED marker arrives is (groups_completed / total_groups) * 0.9,
with no comparison against the previously broadcast progress. -/
def bake_progress_write (groups_completed total_groups : ℕ) : ℚ :=
  ((groups_completed : ℚ) / (total_groups : ℚ)) * (9/10)

/-- app/jobs.py worker_loop, segment-generation branch: the per-batch progress
written after batch g_idx is (g_idx + 1) / total_groups, again with no
comparison against the previously broadcast progress. -/
def segment_progress_write (g_idx total_groups : ℕ) : ℚ :=
  ((g_idx : ℚ) + 1) / (total_groups : ℚ)

/-- A rational that is a whole number of hundredths: every value on_output
broadcasts has this shape (it is a round2 image). -/
def isCent (q : ℚ) : Prop := ∃ k : ℤ, q = (k : ℚ) / 100

/-- The invariant the worker establishes at job start (progress 0, last
broadcast 0) and that on_output maintains while no tqdm percentage above 98
arrives: the bookkeeping agrees with the last broadcast, which is a whole
number of hundredths within [0, 0.98]. -/
def OOInv (st : OOState) : Prop :=
  st.progress = st.lastBroadcastP ∧ isCent st.progress ∧
    0 ≤ st.progress ∧ st.progress ≤ 49/50

/-- Whether a line respects the 98 percent cap (structured signals above the
cap are what break monotonicity). -/
def tqdmCapped : LineKind → Prop
  | .tqdmLine pct => pct ≤ 98
  | _ => True

/-! Helper lemmas shared by several developments. -/

theorem edge_ok_self (a : Status) : edge_ok a a = true := by
  cases a <;> rfl

theorem round2_mono {x y : ℚ} (h : x ≤ y) : round2 x ≤ round2 y := by
  simp only [round2, round_eq]
  have h2 : (⌊x * 100 + 1/2⌋ : ℤ) ≤ ⌊y * 100 + 1/2⌋ :=
    Int.floor_le_floor (by linarith)
  have h3 : ((⌊x * 100 + 1/2⌋ : ℤ) : ℚ) ≤ ((⌊y * 100 + 1/2⌋ : ℤ) : ℚ) := by
    exact_mod_cast h2
  linarith

theorem round2_of_cent (k : ℤ) : round2 ((k : ℚ) / 100) = (k : ℚ) / 100 := by
  unfold round2
  rw [div_mul_cancel₀ _ (by norm_num : (100:ℚ) ≠ 0), round_intCast]

theorem isCent_round2 (q : ℚ) : isCent (round2 q) :=
  ⟨round (q * 100), rfl⟩

theorem round2_fix {q : ℚ} (h : isCent q) : round2 q = q := by
  obtain ⟨k, rfl⟩ := h
  exact round2_of_cent k

theorem isCent_pos_ge {q : ℚ} (h : isCent q) (h0 : 0 < q) : 1/100 ≤ q := by
  obtain ⟨k, rfl⟩ := h
  have hk : (0 : ℚ) < k := by
    by_contra hc
    push_neg at hc
    have : (k : ℚ)/100 ≤ 0 := div_nonpos_of_nonpos_of_nonneg hc (by norm_num)
    linarith
  have hk1 : (1 : ℤ) ≤ k := by exact_mod_cast hk
  have : (1 : ℚ) ≤ (k : ℚ) := by exact_mod_cast hk1
  linarith

theorem isCent_zero : isCent 0 := ⟨0, by norm_num⟩

theorem isCent_add_one {q : ℚ} (h : isCent q) : isCent (q + 1/100) := by
  obtain ⟨k, rfl⟩ := h
  exact ⟨k + 1, by push_cast; ring⟩

theorem isCent_cap : isCent (49/50 : ℚ) := ⟨98, by norm_num⟩

/-! C9 -/

/-- C9: the ETA estimate is max(5, floor(chars / max(1, cps))): it is always at
least 5 seconds and the divisor is clamped to at least 1. -/
theorem C9_eta_floor_and_clamp (c : ℕ) (cps : ℚ) :
    _estimate_seconds c cps = max 5 ⌊(c : ℚ) / max 1 cps⌋ ∧
    5 ≤ _estimate_seconds c cps ∧ (1 : ℚ) ≤ max 1 cps := by
  have hpos : (0:ℚ) < max 1 cps := lt_of_lt_of_le one_pos (le_max_left _ _)
  have hq : 0 ≤ (c : ℚ) / max 1 cps :=
    div_nonneg (Nat.cast_nonneg c) (le_of_lt hpos)
  refine ⟨?_, le_max_left _ _, le_max_left _ _⟩
  unfold _estimate_seconds pyint
  rw [if_pos hq]

/-! C10 -/

/-- C10: cancelling a job id with no registered cancellation token is a silent
no-op: the registry is returned unchanged and no token is created for the id.
The source function reads nothing but the cancel_flags dict, so no job record
can be affected. -/
theorem C10_cancel_unknown_id_noop (cancel_flags : String → Option Bool)
    (job_id : String) (h : cancel_flags job_id = none) :
    cancel cancel_flags job_id = cancel_flags ∧
    cancel cancel_flags job_id job_id = none := by
  unfold cancel
  rw [h]
  exact ⟨rfl, h⟩

/-- Witness for C10 at the empty registry and id "ghost". -/
theorem C10_witness :
    (fun _ => none : String → Option Bool) "ghost" = none ∧
    cancel (fun _ => none) "ghost" = (fun _ => none : String → Option Bool) :=
  ⟨rfl, (C10_cancel_unknown_id_noop (fun _ => none) "ghost" rfl).1⟩

/-! C3 -/

/-- C3 counterexample: an audiobook assembly job cancelled while running (the
streamer observes the cancel poll, so the invocation returns 1) is marked
failed, not cancelled; and a segment-generation job cancelled mid-loop is
marked done, not cancelled. -/
theorem C3_counterexample :
    audiobook_final (run_cmd_stream_rc true 0) true = .failed ∧
    Status.failed ≠ .cancelled ∧
    segment_loop_final true = .done ∧
    Status.done ≠ .cancelled := by
  refine ⟨?_, by decide, rfl, by decide⟩
  simp [audiobook_final, run_cmd_stream_rc]

/-- C3 amended: only plain synthesis jobs reliably end cancelled: if the cancel
flag is set when the synthesis invocation returns, the final status is
cancelled regardless of exit code or partial output. A cancelled audiobook
assembly invocation (poll observed) ends failed; a cancelled
segment-generation job ends done; a bake job cancelled before stitching gets
no terminal status write at all and keeps status running. -/
theorem C3_amended_cancellation_outcomes :
    (∀ (rc : ℤ) (oe : Bool), xtts_final true rc oe = .cancelled) ∧
    (∀ (proc_exit : ℤ) (oe : Bool),
        audiobook_final (run_cmd_stream_rc true proc_exit) oe = .failed) ∧
    (∀ c : Bool, segment_loop_final c = .done) ∧
    (∀ (src : ℤ) (oe : Bool), bake_final true src oe = none) := by
  refine ⟨fun rc oe => rfl, fun pe oe => ?_, fun c => rfl, fun src oe => rfl⟩
  simp [audiobook_final, run_cmd_stream_rc]

/-! C7 -/

/-- C7: a dequeued job that reaches the idempotence check (it did not fail the
missing-text check) and whose output artifact already exists is written
straight to done with progress 1.0, and the engine is never invoked. -/
theorem C7_idempotence_short_circuit (j : Job) (text_exists output_exists : Bool)
    (h1 : output_exists = true)
    (h2 : missing_text_failure j text_exists = false) :
    worker_dispatch j text_exists output_exists =
      ⟨some .done, some 1, false⟩ := by
  unfold worker_dispatch
  rw [h2, h1]
  simp

/-- Witness for C7 at a concrete synthesis job whose text and output exist. -/
theorem C7_witness :
    (true = true) ∧
    missing_text_failure
      { id := "w7", engine := .xtts, chapter_file := "c.txt", status := .queued }
      true = false ∧
    worker_dispatch
      { id := "w7", engine := .xtts, chapter_file := "c.txt", status := .queued }
      true true = ⟨some .done, some 1, false⟩ :=
  ⟨rfl, rfl, C7_idempotence_short_circuit _ true true rfl rfl⟩

/-! C4 -/

theorem startup_reset_not_active (j : Job) :
    (startup_reset_job j).status ≠ .queued ∧
    (startup_reset_job j).status ≠ .running := by
  by_cases h : j.status = .queued ∨ j.status = .running
  · unfold startup_reset_job
    rw [if_pos h]
    exact ⟨fun h2 => Status.noConfusion h2, fun h2 => Status.noConfusion h2⟩
  · unfold startup_reset_job
    rw [if_neg h]
    push_neg at h
    exact h

/-- C4: the startup pass forces every job persisted as queued or running to
cancelled with the error marker "Restarted", and afterwards no job in the pass
result is queued or running (nothing is resumed). -/
theorem C4_startup_forces_cancelled :
    (∀ j : Job, (j.status = .queued ∨ j.status = .running) →
        (startup_reset_job j).status = .cancelled ∧
        (startup_reset_job j).error = some "Restarted") ∧
    (∀ (jobs : List (String × Job)) (p : String × Job),
        p ∈ startup_event_pass jobs →
        p.2.status ≠ .queued ∧ p.2.status ≠ .running) := by
  constructor
  · intro j h
    unfold startup_reset_job
    rw [if_pos h]
    exact ⟨rfl, rfl⟩
  · intro jobs p hp
    unfold startup_event_pass at hp
    rcases List.mem_map.1 hp with ⟨q, _, rfl⟩
    exact startup_reset_not_active q.2

/-- A job persisted as running, used to witness the startup reset. -/
def w4job : Job :=
  { id := "w4", engine := .xtts, chapter_file := "c.txt", status := .running }

/-- Witness for C4 at a concrete job persisted as running. -/
theorem C4_witness :
    (w4job.status = .queued ∨ w4job.status = .running) ∧
    (startup_reset_job w4job).status = .cancelled ∧
    (startup_reset_job w4job).error = some "Restarted" :=
  ⟨Or.inr rfl, C4_startup_forces_cancelled.1 _ (Or.inr rfl)⟩

/-! C1 -/

/-- A queued job, used to exhibit the direct queued-to-cancelled transition. -/
def x1job : Job :=
  { id := "x1", engine := .xtts, chapter_file := "a.txt", status := .queued }

/-- C1 counterexample: both the startup reset and cancel-all-pending move a
queued job directly to cancelled, an edge the claim explicitly excludes. -/
theorem C1_counterexample :
    x1job.status = .queued ∧
    (startup_reset_job x1job).status = .cancelled ∧
    (cancel_pending_job x1job).status = .cancelled ∧
    spec_edge .queued .cancelled = false := by
  have hq : x1job.status = .queued ∨ x1job.status = .running := Or.inl rfl
  refine ⟨rfl, ?_, ?_, rfl⟩
  · unfold startup_reset_job
    rw [if_pos hq]
  · unfold cancel_pending_job
    rw [if_pos hq]

/-- C1 amended: status transitions follow the spec edges extended with the
direct queued-to-cancelled edge used by the startup reset and by
cancel-all-pending; every modelled status-writing operation (startup reset,
cancel-all-pending, the reconciler reset, the worker's start-of-job write and
each terminal write) stays inside this extended edge set. -/
theorem C1_amended_transitions :
    (∀ j : Job, edge_ok j.status (startup_reset_job j).status = true) ∧
    (∀ j : Job, edge_ok j.status (cancel_pending_job j).status = true) ∧
    (∀ (j : Job) (oe : Bool),
        edge_ok j.status (reconcile_reset_job j oe).status = true) ∧
    edge_ok .queued .running = true ∧
    (∀ (c : Bool) (rc : ℤ) (oe : Bool),
        edge_ok .running (xtts_final c rc oe) = true) ∧
    (∀ (rc : ℤ) (oe : Bool), edge_ok .running (audiobook_final rc oe) = true) ∧
    (∀ c : Bool, edge_ok .running (segment_loop_final c) = true) ∧
    (∀ (c : Bool) (src : ℤ) (oe : Bool) (s : Status),
        bake_final c src oe = some s → edge_ok .running s = true) := by
  refine ⟨?_, ?_, ?_, rfl, ?_, ?_, fun c => rfl, ?_⟩
  · intro j
    by_cases h : j.status = .queued ∨ j.status = .running
    · unfold startup_reset_job
      rw [if_pos h]
      rcases h with h | h <;> rw [h] <;> rfl
    · unfold startup_reset_job
      rw [if_neg h]
      exact edge_ok_self _
  · intro j
    by_cases h : j.status = .queued ∨ j.status = .running
    · unfold cancel_pending_job
      rw [if_pos h]
      rcases h with h | h <;> rw [h] <;> rfl
    · unfold cancel_pending_job
      rw [if_neg h]
      exact edge_ok_self _
  · intro j oe
    by_cases h : j.status = .done ∧ j.engine ≠ .audiobook ∧ oe = false
    · unfold reconcile_reset_job
      rw [if_pos h, h.1]
      rfl
    · unfold reconcile_reset_job
      rw [if_neg h]
      exact edge_ok_self _
  · intro c rc oe
    unfold xtts_final
    split
    · rfl
    · split <;> rfl
  · intro rc oe
    unfold audiobook_final
    split <;> rfl
  · intro c src oe s h
    unfold bake_final at h
    split at h
    · exact Option.noConfusion h
    · split at h <;> (injection h with h2; rw [← h2]) <;> rfl

/-- Witness for C1's amended theorem at a concrete finished bake job. -/
theorem C1_witness :
    bake_final false 0 true = some .done ∧ edge_ok .running .done = true :=
  ⟨rfl, C1_amended_transitions.2.2.2.2.2.2.2 false 0 true .done rfl⟩

/-! C5 -/

/-- C5: update_job with an unknown id is a complete no-op: the jobs map is
unchanged, no forward-sync to the queue mirror is attempted and no listener is
notified. With a known id, exactly the supplied fields are overwritten and
every other field of that record, and every other record, is unchanged. -/
theorem C5_update_job_semantics {α : Type}
    (jobs : String → Option (FieldMap α)) (job_id : String) (u : FieldMap α) :
    (jobs job_id = none →
       (update_job jobs job_id u).jobs = jobs ∧
       (update_job jobs job_id u).synced_to_mirror = false ∧
       (update_job jobs job_id u).listeners_notified = false) ∧
    (∀ j, jobs job_id = some j →
       (∀ k, k ≠ job_id → (update_job jobs job_id u).jobs k = jobs k) ∧
       (∃ j2, (update_job jobs job_id u).jobs job_id = some j2 ∧
          (∀ f v, u f = some v → j2 f = some v) ∧
          (∀ f, u f = none → j2 f = j f))) := by
  constructor
  · intro h
    unfold update_job
    rw [h]
    exact ⟨rfl, rfl, rfl⟩
  · intro j h
    unfold update_job
    rw [h]
    constructor
    · intro k hk
      simp only
      rw [if_neg hk]
    · refine ⟨dict_update j u, ?_, ?_, ?_⟩
      · simp
      · intro f v hf
        unfold dict_update
        rw [hf]
      · intro f hf
        unfold dict_update
        rw [hf]

/-- A one-record jobs map and a status-only update, for the C5 witness. -/
def w5jobs : String → Option (FieldMap String) :=
  fun k => if k = "a" then some (fun f => if f = "status" then some "queued" else none) else none

/-- Witness for C5: updating the absent id "ghost" leaves the map, the mirror
and the listeners untouched. -/
theorem C5_witness :
    w5jobs "ghost" = none ∧
    (update_job w5jobs "ghost" (fun f => if f = "status" then some "done" else none)).jobs = w5jobs ∧
    (update_job w5jobs "ghost" (fun f => if f = "status" then some "done" else none)).synced_to_mirror = false ∧
    (update_job w5jobs "ghost" (fun f => if f = "status" then some "done" else none)).listeners_notified = false :=
  ⟨rfl, (C5_update_job_semantics w5jobs "ghost" _).1 rfl⟩

/-! C8 -/

theorem record_active_for_fresh (f pid ch : String) (sp : ℤ) :
    record_active_for ch sp ⟨f, pid, ch, sp, "queued"⟩ = true := by
  simp [record_active_for]

/-- C8 counterexample: enqueuing the same chapter twice in immediate
succession through enqueue_single does not return the first call's job id: the
first queued record is deleted and a second, fresh id is handed out. -/
theorem C8_counterexample :
    (enqueue_single [] "a1" "ch1.txt" .xtts true 0).job_id = some "a1" ∧
    (enqueue_single (enqueue_single [] "a1" "ch1.txt" .xtts true 0).jobs
        "b2" "ch1.txt" .xtts true 0).ok = true ∧
    (enqueue_single (enqueue_single [] "a1" "ch1.txt" .xtts true 0).jobs
        "b2" "ch1.txt" .xtts true 0).job_id = some "b2" ∧
    (some "b2" : Option String) ≠ some "a1" :=
  ⟨rfl, rfl, rfl, by decide⟩

/-- C8 amended: the durable-queue-mirror insert (db.add_to_queue) is the
idempotent one: a second immediate call for the same target returns the first
call's mirror id and leaves the table unchanged, and it preserves the
invariant that a target has at most one queued/running mirror record. The
job-level enqueue_single instead deletes the previous job record for the
target and returns a fresh job id, so after a successful call exactly one
queued/running job record exists for the target, but with a new id. -/
theorem C8_amended_idempotent_mirror :
    (∀ (tbl : List QueueRecord) (f1 f2 pid ch : String) (sp : ℤ),
       (add_to_queue (add_to_queue tbl f1 pid ch sp).2 f2 pid ch sp).1 =
         (add_to_queue tbl f1 pid ch sp).1 ∧
       (add_to_queue (add_to_queue tbl f1 pid ch sp).2 f2 pid ch sp).2 =
         (add_to_queue tbl f1 pid ch sp).2) ∧
    (∀ (tbl : List QueueRecord) (f pid ch : String) (sp : ℤ),
       count_active tbl ch sp ≤ 1 →
       count_active (add_to_queue tbl f pid ch sp).2 ch sp ≤ 1) ∧
    (∀ (jobs : List (String × Job)) (f cf : String) (en : Engine)
       (sm : Bool) (ca : ℚ),
       (enqueue_single jobs f cf en sm ca).ok = true →
       count_active_jobs (enqueue_single jobs f cf en sm ca).jobs cf en = 1) := by
  refine ⟨?_, ?_, ?_⟩
  · intro tbl f1 f2 pid ch sp
    unfold add_to_queue
    cases h : tbl.find? (record_active_for ch sp) with
    | some r => simp [h]
    | none =>
      have hfind :
          (tbl ++ [⟨f1, pid, ch, sp, "queued"⟩] : List QueueRecord).find?
            (record_active_for ch sp) = some ⟨f1, pid, ch, sp, "queued"⟩ := by
        rw [List.find?_append, h]
        simp [List.find?, record_active_for]
      simp [h, hfind]
  · intro tbl f pid ch sp h
    unfold add_to_queue
    cases hf : tbl.find? (record_active_for ch sp) with
    | some r => simpa [hf, count_active] using h
    | none =>
      simp only [hf]
      unfold count_active
      rw [List.countP_append]
      have h0 : tbl.countP (record_active_for ch sp) = 0 := by
        rw [List.countP_eq_zero]
        exact fun a ha => by
          have := List.find?_eq_none.mp hf a ha
          simpa using this
      rw [h0]
      simp [List.countP, List.countP.go, record_active_for_fresh]
  · intro jobs f cf en sm ca h
    unfold enqueue_single at h ⊢
    by_cases hg : jobs.any (fun p =>
        p.2.chapter_file == cf && p.2.engine == en && p.2.status == .running) = true
    · rw [if_pos hg] at h
      exact absurd h (by simp)
    · rw [if_neg hg]
      unfold count_active_jobs
      dsimp only
      rw [List.countP_append]
      have h0 : (jobs.filter (fun p =>
          !(p.2.chapter_file == cf && p.2.engine == en))).countP (fun p =>
            p.2.chapter_file == cf && p.2.engine == en &&
              (p.2.status == .queued || p.2.status == .running)) = 0 := by
        rw [List.countP_eq_zero]
        intro a ha hp
        have hmem := (List.mem_filter.mp ha).2
        rw [Bool.not_eq_true'] at hmem
        simp only [Bool.and_eq_true] at hp
        obtain ⟨⟨h1, h2⟩, _⟩ := hp
        rw [h1, h2] at hmem
        simp at hmem
      rw [h0]
      simp

/-- Witness for C8's amended theorem: the empty mirror satisfies the
at-most-one-active invariant and still does after one insert. -/
theorem C8_witness :
    count_active [] "ch" 0 ≤ 1 ∧
    count_active (add_to_queue [] "f1" "p1" "ch" 0).2 "ch" 0 ≤ 1 :=
  ⟨by decide, C8_amended_idempotent_mirror.2.1 [] "f1" "p1" "ch" 0 (by decide)⟩

/-! Lemmas about the on_output broadcast machinery, shared by C2 and C6. -/

theorem progressValues_append (a b : List StoreWrite) :
    progressValues (a ++ b) = progressValues a ++ progressValues b :=
  List.filterMap_append a b _

theorem consolidatedStep_emit {st : OOState} {now np : ℚ} {hl : Bool} {p : ℚ}
    (hp : p ∈ progressValues (consolidatedStep st now np hl).2) :
    p = np ∧ (1/100 ≤ |np - st.lastBroadcastP| ∨
      (st.lastBroadcastP = 0 ∧ 0 < np)) := by
  unfold consolidatedStep at hp
  split at hp
  · next h =>
    simp only [progressValues, List.filterMap] at hp
    rcases List.mem_singleton.mp hp with rfl
    exact ⟨rfl, h⟩
  · split at hp
    · simp [progressValues, List.filterMap] at hp
    · simp [progressValues, List.filterMap] at hp

theorem consolidatedStep_state (st : OOState) (now np : ℚ) (hl : Bool) :
    (consolidatedStep st now np hl).1 = st ∨
    (consolidatedStep st now np hl).1 = { st with lastBroadcastTime := now } ∨
    (consolidatedStep st now np hl).1 =
      { st with progress := np, lastBroadcastP := np, lastBroadcastTime := now } := by
  unfold consolidatedStep
  split
  · exact Or.inr (Or.inr rfl)
  · split
    · exact Or.inr (Or.inl rfl)
    · exact Or.inl rfl

theorem projection_ge_progress (st : OOState) (now start : ℚ) (eta : ℕ)
    (hle : st.progress ≤ 49/50) : st.progress ≤ projection st now start eta :=
  le_min hle (le_max_left _ _)

theorem projection_le_cap (st : OOState) (now start : ℚ) (eta : ℕ) :
    projection st now start eta ≤ 49/50 :=
  min_le_left _ _

theorem round2_le_cap {q : ℚ} (h : q ≤ 49/50) : round2 q ≤ 49/50 := by
  have := round2_mono h
  rwa [round2_fix isCent_cap] at this

theorem OOInv_time (st : OOState) (t : ℚ) :
    OOInv { st with lastBroadcastTime := t } ↔ OOInv st := by
  simp [OOInv]

theorem isCent_pct (pct : ℕ) : isCent ((pct : ℚ) / 100) :=
  ⟨(pct : ℤ), by push_cast; ring⟩

/-! C6 -/

/-- C6: whenever on_output pushes a progress-bearing write through the state
store, either the computed progress had moved at least 0.01 away from the last
broadcast value, or at least 30 seconds had elapsed since the last broadcast
(the heartbeat escape); writes meeting neither condition carry no progress. -/
theorem C6_progress_broadcast_rate_limited (st : OOState) (now start : ℚ)
    (eta : ℕ) (k : LineKind) (hc : isCent st.lastBroadcastP) :
    ∀ p ∈ progressValues (on_output st now start eta k).2,
      1/100 ≤ |p - st.lastBroadcastP| ∨ 30 ≤ now - st.lastBroadcastTime := by
  cases k with
  | empty =>
    intro p hp
    unfold on_output at hp
    dsimp only at hp
    split at hp
    · next h =>
      simp only [progressValues, List.filterMap] at hp
      rcases List.mem_singleton.mp hp with rfl
      rcases h with hmv | ht
      · left
        have h1 : st.lastBroadcastP + 1/100 ≤ projection st now start eta := by
          linarith
        have h2 := round2_mono h1
        rw [round2_fix (isCent_add_one hc)] at h2
        have h3 : (0:ℚ) ≤ round2 (projection st now start eta) - st.lastBroadcastP := by
          linarith
        rw [abs_of_nonneg h3]
        linarith
      · right
        linarith
    · simp [progressValues] at hp
  | filtered =>
    intro p hp
    simp [on_output, progressValues] at hp
  | tqdmLine pct =>
    intro p hp
    unfold on_output at hp
    dsimp only at hp
    obtain ⟨rfl, hcond⟩ := consolidatedStep_emit hp
    rcases hcond with h | ⟨hbp, hpos⟩
    · exact Or.inl h
    · left
      have hcent : isCent (if st.progress < round2 ((pct : ℚ)/100)
          then round2 ((pct : ℚ)/100)
          else round2 (projection st now start eta)) := by
        split <;> exact isCent_round2 _
      have hge := isCent_pos_ge hcent hpos
      rw [hbp, sub_zero, abs_of_pos hpos]
      exact hge
  | textLine iw hl =>
    intro p hp
    unfold on_output at hp
    dsimp only at hp
    rw [progressValues_append] at hp
    rcases List.mem_append.mp hp with hp0 | hp1
    · cases iw <;> simp [progressValues, List.filterMap] at hp0
    · have hlast : (if iw = true then
          { st with warningCount := st.warningCount + 1 } else st).lastBroadcastP =
          st.lastBroadcastP := by
        cases iw <;> rfl
      obtain ⟨hpeq, hcond⟩ := consolidatedStep_emit hp1
      rw [hlast] at hcond
      rcases hcond with h | ⟨hbp, hpos⟩
      · rw [← hpeq] at h
        exact Or.inl h
      · left
        have hge := isCent_pos_ge (isCent_round2 _) hpos
        rw [← hpeq] at hpos hge
        rw [hbp, sub_zero, abs_of_pos hpos]
        exact hge

/-! C2 -/

theorem np_proj_facts (st : OOState) (now start : ℚ) (eta : ℕ)
    (hcent : isCent st.progress) (h0 : 0 ≤ st.progress)
    (hle : st.progress ≤ 49/50) :
    st.progress ≤ round2 (projection st now start eta) ∧
    round2 (projection st now start eta) ≤ 49/50 ∧
    0 ≤ round2 (projection st now start eta) := by
  have h1 := projection_ge_progress st now start eta hle
  have h2 := round2_mono h1
  rw [round2_fix hcent] at h2
  exact ⟨h2, round2_le_cap (projection_le_cap st now start eta), le_trans h0 h2⟩

theorem consolidated_inv (st : OOState) (now np : ℚ) (hl : Bool)
    (hinv : OOInv st) (hnp1 : st.progress ≤ np) (hnpc : isCent np)
    (hnple : np ≤ 49/50) :
    (∀ p ∈ progressValues (consolidatedStep st now np hl).2,
        st.lastBroadcastP ≤ p) ∧
    OOInv (consolidatedStep st now np hl).1 := by
  obtain ⟨hpl, hcent, h0, hle⟩ := hinv
  constructor
  · intro p hp
    obtain ⟨rfl, _⟩ := consolidatedStep_emit hp
    rw [← hpl]
    exact hnp1
  · rcases consolidatedStep_state st now np hl with h | h | h <;> rw [h]
    · exact ⟨hpl, hcent, h0, hle⟩
    · exact (OOInv_time st now).mpr ⟨hpl, hcent, h0, hle⟩
    · exact ⟨rfl, hnpc, le_trans h0 hnp1, hnple⟩

/-- C2 amended: while the bookkeeping invariant holds (progress equals the
last broadcast value, a whole number of hundredths in [0, 0.98]) and no tqdm
percentage above 98 arrives, every progress value on_output broadcasts is at
least the previous broadcast value, and the invariant is maintained - so the
broadcast sequence is non-decreasing. A 99 or 100 percent tqdm line breaks the
invariant (progress rises above the 0.98 projection cap) and the next
projection-driven broadcast then regresses to 0.98; the segment/bake batch
writes bypass this merge entirely and can regress arbitrarily. -/
theorem C2_amended_monotone_below_cap (st : OOState) (now start : ℚ) (eta : ℕ)
    (k : LineKind) (hinv : OOInv st) (hcap : tqdmCapped k) :
    (∀ p ∈ progressValues (on_output st now start eta k).2,
        st.lastBroadcastP ≤ p) ∧
    OOInv (on_output st now start eta k).1 := by
  obtain ⟨hpl, hcent, h0, hle⟩ := hinv
  cases k with
  | empty =>
    unfold on_output
    dsimp only
    split
    · next h =>
      obtain ⟨hp1, hp2, hp3⟩ := np_proj_facts st now start eta hcent h0 hle
      constructor
      · intro p hp
        simp only [progressValues, List.filterMap] at hp
        rcases List.mem_singleton.mp hp with rfl
        rw [← hpl]
        exact hp1
      · exact ⟨rfl, isCent_round2 _, hp3, hp2⟩
    · exact ⟨fun p hp => by simp [progressValues] at hp, hpl, hcent, h0, hle⟩
  | filtered =>
    exact ⟨fun p hp => by simp [on_output, progressValues] at hp,
           hpl, hcent, h0, hle⟩
  | tqdmLine pct =>
    have hcap98 : pct ≤ 98 := hcap
    have hpval : round2 ((pct : ℚ)/100) = (pct : ℚ)/100 :=
      round2_fix (isCent_pct pct)
    have hple_cap : (pct : ℚ)/100 ≤ 49/50 := by
      have hq : (pct : ℚ) ≤ 98 := by exact_mod_cast hcap98
      linarith
    have hnp1 : st.progress ≤ (if st.progress < round2 ((pct : ℚ)/100)
        then round2 ((pct : ℚ)/100) else round2 (projection st now start eta)) := by
      split
      · next hlt => exact le_of_lt hlt
      · exact (np_proj_facts st now start eta hcent h0 hle).1
    have hnpc : isCent (if st.progress < round2 ((pct : ℚ)/100)
        then round2 ((pct : ℚ)/100) else round2 (projection st now start eta)) := by
      split <;> exact isCent_round2 _
    have hnple : (if st.progress < round2 ((pct : ℚ)/100)
        then round2 ((pct : ℚ)/100) else round2 (projection st now start eta)) ≤ 49/50 := by
      split
      · rw [hpval]
        exact hple_cap
      · exact (np_proj_facts st now start eta hcent h0 hle).2.1
    unfold on_output
    dsimp only
    exact consolidated_inv st now _ false ⟨hpl, hcent, h0, hle⟩ hnp1 hnpc hnple
  | textLine iw hl =>
    cases iw with
    | false =>
      obtain ⟨hp1, hp2, hp3⟩ := np_proj_facts st now start eta hcent h0 hle
      unfold on_output
      dsimp only
      exact consolidated_inv st now _ hl ⟨hpl, hcent, h0, hle⟩ hp1 (isCent_round2 _) hp2
    | true =>
      have hinv1 : OOInv { st with warningCount := st.warningCount + 1 } :=
        ⟨hpl, hcent, h0, hle⟩
      obtain ⟨hp1, hp2, hp3⟩ :=
        np_proj_facts { st with warningCount := st.warningCount + 1 }
          now start eta hcent h0 hle
      have hcons := consolidated_inv { st with warningCount := st.warningCount + 1 }
        now (round2 (projection { st with warningCount := st.warningCount + 1 }
          now start eta)) hl hinv1 hp1 (isCent_round2 _) hp2
      unfold on_output
      dsimp only
      constructor
      · intro p hp
        rw [progressValues_append] at hp
        rcases List.mem_append.mp hp with hp0 | hp1m
        · simp [progressValues, List.filterMap] at hp0
        · exact hcons.1 p hp1m
      · exact hcons.2

theorem on_output_eval_tqdm99 :
    on_output ⟨0, 0, 0, 0⟩ 1 0 5 (.tqdmLine 99) =
      (⟨99/100, 99/100, 1, 0⟩, [.consolidated (some (99/100)) false]) := by
  norm_num [on_output, consolidatedStep, projection, round2, round_eq,
    min_def, max_def]

theorem on_output_eval_text :
    on_output ⟨99/100, 99/100, 1, 0⟩ 2 0 5 (.textLine false true) =
      (⟨49/50, 49/50, 2, 0⟩, [.consolidated (some (49/50)) true]) := by
  norm_num [on_output, consolidatedStep, projection, round2, round_eq,
    min_def, max_def, abs_of_nonneg, abs_of_nonpos]

/-- C2 counterexample: starting from the fresh per-job bookkeeping, a tqdm
line reporting 99 percent broadcasts progress 0.99; the very next plain text
line recomputes the projection, which is capped at 0.98, and broadcasts 0.98:
the broadcast progress sequence 0.99, 0.98 regresses. -/
theorem C2_counterexample :
    progressValues (on_output ⟨0, 0, 0, 0⟩ 1 0 5 (.tqdmLine 99)).2 = [99/100] ∧
    (on_output ⟨0, 0, 0, 0⟩ 1 0 5 (.tqdmLine 99)).1 = ⟨99/100, 99/100, 1, 0⟩ ∧
    progressValues
      (on_output ⟨99/100, 99/100, 1, 0⟩ 2 0 5 (.textLine false true)).2 =
      [49/50] ∧
    (49/50 : ℚ) < 99/100 := by
  refine ⟨?_, ?_, ?_, by norm_num⟩
  · rw [on_output_eval_tqdm99]
    rfl
  · rw [on_output_eval_tqdm99]
  · rw [on_output_eval_text]
    rfl

theorem on_output_eval_heartbeat :
    on_output ⟨0, 0, 0, 0⟩ 31 0 5 .empty =
      (⟨49/50, 49/50, 31, 0⟩, [.progressOnly (49/50)]) := by
  norm_num [on_output, projection, round2, round_eq, min_def, max_def]

/-- Witness for C2's amended theorem at the fresh bookkeeping state and a
heartbeat line. -/
theorem C2_witness :
    OOInv ⟨0, 0, 0, 0⟩ ∧ tqdmCapped .empty ∧
    (⟨0, 0, 0, 0⟩ : OOState).lastBroadcastP ≤ 49/50 ∧
    OOInv (on_output ⟨0, 0, 0, 0⟩ 31 0 5 .empty).1 := by
  have hinv : OOInv ⟨0, 0, 0, 0⟩ := ⟨rfl, isCent_zero, le_refl 0, by norm_num⟩
  refine ⟨hinv, trivial, ?_,
    (C2_amended_monotone_below_cap ⟨0, 0, 0, 0⟩ 31 0 5 .empty hinv trivial).2⟩
  exact (C2_amended_monotone_below_cap ⟨0, 0, 0, 0⟩ 31 0 5 .empty hinv trivial).1
    (49/50) (by rw [on_output_eval_heartbeat]; exact List.mem_singleton.mpr rfl)

/-- Witness for C6 at the fresh bookkeeping state and a heartbeat line. -/
theorem C6_witness :
    isCent (⟨0, 0, 0, 0⟩ : OOState).lastBroadcastP ∧
    ((1:ℚ)/100 ≤ |49/50 - (⟨0, 0, 0, 0⟩ : OOState).lastBroadcastP| ∨
      (30:ℚ) ≤ 31 - (⟨0, 0, 0, 0⟩ : OOState).lastBroadcastTime) :=
  ⟨isCent_zero,
   C6_progress_broadcast_rate_limited ⟨0, 0, 0, 0⟩ 31 0 5 .empty isCent_zero
     (49/50)
     (by rw [on_output_eval_heartbeat]; exact List.mem_singleton.mpr rfl)⟩

end AudiobookFactory
